import Mathlib

/-!
Shallow embedding of `src/farming_sim.py` ("Tiny Tractor Tycoon — Rabbits
Edition").  Wall-clock times and durations are modelled as rationals,
Python integers as `Int`.  Randomness (forager spawn positions, move-time
jitter, movement directions) is modelled by explicit oracles passed to the
functions that consume it, so that every statement quantifies over the
random draws.  Python's `int()` conversion (truncation toward zero) is
modelled by `pyInt`.
-/

/-- Source constant `COLS = 8`. -/
abbrev COLS : ℕ := 8

/-- Source constant `ROWS = 6`. -/
abbrev ROWS : ℕ := 6

/-- Source constant `RABBIT_MOVE_INT = 0.6` (seconds between rabbit hops). -/
def RABBIT_MOVE_INT : ℚ := 6 / 10

/-- Source dataclass `CropType` (frozen). -/
structure CropType where
  key : String
  name : String
  emojis : String × String × String × String
  grow_time : ℚ
  seed_cost : ℤ
  reward : ℤ
deriving DecidableEq

/-- Source list `CROPS`. -/
def CROPS : List CropType :=
  [⟨"1", "Corn",     ("🫘","🌱","🌾","🌽"), 240, 5, 12⟩,
   ⟨"2", "Potato",   ("🥔","🌱","🌿","🥔"), 210, 4, 10⟩,
   ⟨"3", "Tomato",   ("🍅","🌱","🌿","🍅"), 180, 4, 10⟩,
   ⟨"4", "Bean",     ("🫘","🌱","🌿","🫘"), 150, 3,  8⟩,
   ⟨"5", "Cabbage",  ("🥬","🌱","🌿","🥬"), 270, 6, 15⟩,
   ⟨"6", "Broccoli", ("🥦","🌱","🌿","🥦"), 300, 7, 18⟩]

/-- Source dict `CROP_BY_KEY = {c.key: c for c in CROPS}` as a lookup. -/
def CROP_BY_KEY (k : String) : Option CropType :=
  CROPS.find? (fun c => c.key == k)

/-- Source dataclass `Tile`. -/
structure Tile where
  crop : Option CropType := none
  planted_at : ℚ := 0
  stage : ℤ := 0
  fertilized : Bool := false
  flash_to : ℚ := 0
  sparkle_t : ℚ := 0
deriving DecidableEq

/-- Source dataclass `Rabbit`. -/
structure Rabbit where
  x : Fin COLS
  y : Fin ROWS
  next_move : ℚ := 0
deriving DecidableEq

/-- The mutable simulation state of class `TinyTractorTycoon`
(fields `grid`, `x`, `y`, `selected`, `coins`, `harvest_log`, `rabbits`;
the rendering-only fields are omitted). -/
structure GameState where
  grid : Fin COLS → Fin ROWS → Tile
  x : Fin COLS
  y : Fin ROWS
  selected : CropType
  coins : ℤ
  harvest_log : CropType → ℤ
  rabbits : List Rabbit

/-- Functional update of one grid cell (Python `self.grid[x][y] = t` /
in-place mutation of the tile object stored there). -/
def setTile (grid : Fin COLS → Fin ROWS → Tile) (x : Fin COLS) (y : Fin ROWS)
    (t : Tile) : Fin COLS → Fin ROWS → Tile :=
  fun a b => if a = x ∧ b = y then t else grid a b

/-- Python `int()` applied to a rational: truncation toward zero. -/
def pyInt (q : ℚ) : ℤ := q.num.tdiv q.den

/-- The stage formula from `update_growth`:
`new_stage = min(int((elapsed / tile.crop.grow_time) * 4), 3)`. -/
def stageOf (c : CropType) (elapsed : ℚ) : ℤ :=
  min (pyInt (elapsed / c.grow_time * 4)) 3

/-- The per-tile effect of `update_growth` on the cell itself
(growing is skipped for empty tiles and tiles already at stage 3). -/
def growTile (now : ℚ) (tile : Tile) : Tile :=
  match tile.crop with
  | none => tile
  | some c =>
    if tile.stage = 3 then tile
    else
      let new_stage := stageOf c (now - tile.planted_at)
      if new_stage ≠ tile.stage then { tile with stage := new_stage } else tile

/-- The field/player/economy state set up by `TinyTractorTycoon.__init__`:
empty grid, cursor at (0,0), first crop selected, 25 coins, empty
harvest log, no rabbits. -/
def initState : GameState :=
  { grid := fun _ _ => {}
    x := 0
    y := 0
    selected := CROPS.get ⟨0, by decide⟩
    coins := 25
    harvest_log := fun _ => 0
    rabbits := [] }

/-- Source method `handle_action(now)` (SPACE): plant on an empty tile if
affordable, harvest a stage-3 tile, otherwise do nothing. -/
def handle_action (now : ℚ) (g : GameState) : GameState :=
  let tile := g.grid g.x g.y
  match tile.crop with
  | none =>
    let c := g.selected
    if c.seed_cost ≤ g.coins then
      { g with
        coins := g.coins - c.seed_cost
        grid := setTile g.grid g.x g.y
          { tile with crop := some c, planted_at := now, stage := 0,
                      fertilized := false, flash_to := now + 3/10 } }
    else g
  | some c =>
    if tile.stage = 3 then
      { g with
        coins := g.coins + c.reward
        harvest_log := fun d => if d = c then g.harvest_log d + 1 else g.harvest_log d
        grid := setTile g.grid g.x g.y {} }
    else g

/-- Source method `handle_fertilizer(now)` (F key). -/
def handle_fertilizer (now : ℚ) (g : GameState) : GameState :=
  if g.coins < 5 then g
  else
    let tile := g.grid g.x g.y
    match tile.crop with
    | none => g
    | some c =>
      if tile.fertilized then g
      else
        let elapsed := now - tile.planted_at
        let remaining := max (c.grow_time - elapsed) 0
        { g with
          coins := g.coins - 5
          grid := setTile g.grid g.x g.y
            { tile with planted_at := tile.planted_at - remaining / 2,
                        fertilized := true, sparkle_t := now } }

/-- The player commands dispatched by `handle_input` (the QUIT/ESC paths
terminate the host process and carry no simulation state). -/
inductive Command where
  | moveUp | moveDown | moveLeft | moveRight
  | action
  | fertilize
  | key (k : String)
deriving DecidableEq

/-- Python `% COLS` on a column index (Python `%` on integers is Euclidean
remainder, always in `[0, COLS)` for the positive modulus). -/
def wrapC (z : ℤ) : Fin COLS :=
  ⟨(z % (COLS : ℤ)).toNat, by
    have h1 : 0 ≤ z % (COLS : ℤ) := Int.emod_nonneg z (by decide)
    have h2 : z % (COLS : ℤ) < (COLS : ℤ) := Int.emod_lt_of_pos z (by decide)
    omega⟩

/-- Python `% ROWS` on a row index. -/
def wrapR (z : ℤ) : Fin ROWS :=
  ⟨(z % (ROWS : ℤ)).toNat, by
    have h1 : 0 ≤ z % (ROWS : ℤ) := Int.emod_nonneg z (by decide)
    have h2 : z % (ROWS : ℤ) < (ROWS : ℤ) := Int.emod_lt_of_pos z (by decide)
    omega⟩

/-- One KEYDOWN case of source method `handle_input(now)`. -/
def handle_command (now : ℚ) (cmd : Command) (g : GameState) : GameState :=
  match cmd with
  | .moveUp    => { g with y := wrapR ((g.y : ℤ) - 1) }
  | .moveDown  => { g with y := wrapR ((g.y : ℤ) + 1) }
  | .moveLeft  => { g with x := wrapC ((g.x : ℤ) - 1) }
  | .moveRight => { g with x := wrapC ((g.x : ℤ) + 1) }
  | .action    => handle_action now g
  | .fertilize => handle_fertilizer now g
  | .key k     =>
    match CROP_BY_KEY k with
    | some c => { g with selected := c }
    | none => g

/-- Source method `handle_input(now)`: process the queued events in order. -/
def handle_input (now : ℚ) (cmds : List Command) (g : GameState) : GameState :=
  cmds.foldl (fun g cmd => handle_command now cmd g) g

/-- The retry loop of `spawn_rabbit`: take the first sampled position that
differs from the avoided (player) position, and after exhausting the
samples keep the last one even if it collides. -/
def spawnPickFrom (avoid : Fin COLS × Fin ROWS) :
    List (Fin COLS × Fin ROWS) → Fin COLS × Fin ROWS
  | [] => avoid
  | [p] => p
  | p :: q :: rest => if p ≠ avoid then p else spawnPickFrom avoid (q :: rest)

/-- The random draws consumed by one call of `spawn_rabbit`: the 30
position samples of the retry loop and the `random.random()` jitter. -/
structure SpawnRnd where
  draws : Fin 30 → Fin COLS × Fin ROWS
  jitter : ℚ

/-- Source method `spawn_rabbit()`: append one rabbit at a sampled
position (avoiding the player tile for up to 30 retries), first move
jittered by `random.random() * RABBIT_MOVE_INT`. -/
def spawn_rabbit (rnd : SpawnRnd) (now : ℚ) (g : GameState) : GameState :=
  let p := spawnPickFrom (g.x, g.y) (List.ofFn rnd.draws)
  { g with rabbits := g.rabbits ++ [⟨p.1, p.2, now + rnd.jitter * RABBIT_MOVE_INT⟩] }

/-- One iteration of the nested loop in `update_growth`: the accumulator
carries the game state and the number of spawns performed so far (used to
index the spawn oracle). -/
def growStep (now : ℚ) (rnd : ℕ → SpawnRnd) :
    GameState × ℕ → Fin COLS × Fin ROWS → GameState × ℕ :=
  fun s p =>
    let tile := s.1.grid p.1 p.2
    match tile.crop with
    | none => s
    | some c =>
      if tile.stage = 3 then s
      else
        let new_stage := stageOf c (now - tile.planted_at)
        if new_stage ≠ tile.stage then
          if new_stage = 3 then
            let g1 := spawn_rabbit (rnd s.2) now s.1
            ({ g1 with grid := setTile g1.grid p.1 p.2 { tile with stage := new_stage } }, s.2 + 1)
          else
            ({ s.1 with grid := setTile s.1.grid p.1 p.2 { tile with stage := new_stage } }, s.2)
        else s

/-- The iteration order of `update_growth`: `for gx in range(COLS): for gy
in range(ROWS)`. -/
def positions : List (Fin COLS × Fin ROWS) :=
  (List.finRange COLS).flatMap fun gx => (List.finRange ROWS).map fun gy => (gx, gy)

/-- Source method `update_growth(now)`. -/
def update_growth (now : ℚ) (rnd : ℕ → SpawnRnd) (g : GameState) : GameState :=
  (positions.foldl (growStep now rnd) (g, 0)).1

/-- The direction list of `update_rabbits`:
`random.choice([(0, -1), (0, 1), (-1, 0), (1, 0)])`. -/
def DIRS : List (ℤ × ℤ) := [(0, -1), (0, 1), (-1, 0), (1, 0)]

/-- One iteration of the loop in `update_rabbits`: the accumulator carries
the grid, the rabbits processed so far, and the number of direction draws
consumed so far. -/
def rabbitStep (now : ℚ) (dirs : ℕ → Fin 4) :
    (Fin COLS → Fin ROWS → Tile) × List Rabbit × ℕ → Rabbit →
    (Fin COLS → Fin ROWS → Tile) × List Rabbit × ℕ :=
  fun s r =>
    let r1 : Rabbit :=
      if r.next_move ≤ now then
        let d := DIRS.get (Fin.cast (by decide) (dirs s.2.2))
        ⟨wrapC ((r.x : ℤ) + d.1), wrapR ((r.y : ℤ) + d.2), now + RABBIT_MOVE_INT⟩
      else r
    let k1 : ℕ := if r.next_move ≤ now then s.2.2 + 1 else s.2.2
    let tile := s.1 r1.x r1.y
    let grid1 := if tile.crop.isSome ∧ tile.stage = 3 then setTile s.1 r1.x r1.y {} else s.1
    (grid1, s.2.1 ++ [r1], k1)

/-- Source method `update_rabbits(now)`: each rabbit hops when its move
time has arrived, then eats the (possibly new) tile under it when that
tile holds a stage-3 crop. -/
def update_rabbits (now : ℚ) (dirs : ℕ → Fin 4) (g : GameState) : GameState :=
  let s := g.rabbits.foldl (rabbitStep now dirs) (g.grid, [], 0)
  { g with grid := s.1, rabbits := s.2.1 }

/-- One pass of the main loop in `run` (rendering omitted): input, then
growth, then rabbits. -/
def tick (now : ℚ) (cmds : List Command) (rnd : ℕ → SpawnRnd) (dirs : ℕ → Fin 4)
    (g : GameState) : GameState :=
  update_rabbits now dirs (update_growth now rnd (handle_input now cmds g))

/-- States reachable from the initial state by any sequence of ticks, with
arbitrary tick times, player commands and random draws. -/
inductive Reachable : GameState → Prop
  | init : Reachable initState
  | step (now : ℚ) (cmds : List Command) (rnd : ℕ → SpawnRnd) (dirs : ℕ → Fin 4)
      (g : GameState) : Reachable g → Reachable (tick now cmds rnd dirs g)

/-- The economy/catalog invariant maintained by every tick: the balance is
non-negative and the selected crop and every planted crop come from
`CROPS`. -/
def EconInv (g : GameState) : Prop :=
  0 ≤ g.coins ∧ g.selected ∈ CROPS ∧
  ∀ (a : Fin COLS) (b : Fin ROWS) (c : CropType), (g.grid a b).crop = some c → c ∈ CROPS

/-! ## Concrete data used to instantiate the theorems -/

/-- The Bean crop (`CROPS[3]`): grow time 150 s, seed cost 3, reward 8. -/
def bean : CropType := CROPS.get ⟨3, by decide⟩

/-- A crop with grow duration 200 s, as in the fertilizer scenario of the
spec (no catalog crop has duration 200, so the scenario crop is built
directly). -/
def c200 : CropType := ⟨"7", "Squash", ("🎃","🌱","🌿","🎃"), 200, 4, 10⟩

/-- A fixed spawn oracle: every position sample is (1,1), no jitter. -/
def rnd0 : ℕ → SpawnRnd := fun _ => ⟨fun _ => (1, 1), 0⟩

/-- A fixed direction oracle: always the first direction (0,-1). -/
def dirs0 : ℕ → Fin 4 := fun _ => 0

/-- Spawn draws that all collide with the avoided position (0,0), with
jitter draw 1/2. -/
def rndAvoid : SpawnRnd := ⟨fun _ => (0, 0), 1/2⟩

/-- Initial state with an unfertilized `c200` planted at time 0 on the
cursor cell. -/
def gFert : GameState :=
  { initState with grid := setTile initState.grid 0 0 { crop := some c200 } }

/-- Initial state with a stage-3 (ripe) Bean on the cursor cell. -/
def gRipe : GameState :=
  { initState with grid := setTile initState.grid 0 0 { crop := some bean, stage := 3 } }

/-- `gRipe` plus one rabbit sitting on the ripe cell whose next hop is far
in the future (it will not move at time 1). -/
def gRabbitStay : GameState := { gRipe with rabbits := [⟨0, 0, 5⟩] }

/-- `gRipe` plus one rabbit sitting on the ripe cell whose hop is already
due (it moves away at time 1). -/
def gRabbitMove : GameState := { gRipe with rabbits := [⟨0, 0, 0⟩] }

/-- Initial state with a stage-0 Bean planted at time 0 on the cursor
cell. -/
def gBean : GameState :=
  { initState with grid := setTile initState.grid 0 0 { crop := some bean } }

/-- Scenario of §8: select the Bean (key "4")... -/
def gC6a : GameState := handle_command 0 (Command.key "4") initState

/-- ...plant it at t = 0... -/
def gC6b : GameState := handle_command 0 Command.action gC6a

/-- ...run a growth update at t = 149... -/
def gC6c : GameState := update_growth 149 rnd0 gC6b

/-- ...run a growth update at t = 150... -/
def gC6d : GameState := update_growth 150 rnd0 gC6c

/-- ...and harvest at t = 150. -/
def gC6e : GameState := handle_action 150 gC6d

/-- Fertilizer scenario of §8: `c200` planted at t = 0, fertilized at
t = 100. -/
def gC7f : GameState := handle_fertilizer 100 gFert

/-- ...followed by the growth update of the same tick (t = 100). -/
def gC7g : GameState := update_growth 100 rnd0 gC7f

/-! ## Basic lemmas about the embedded operations -/

lemma setTile_same (G : Fin COLS → Fin ROWS → Tile) (x : Fin COLS) (y : Fin ROWS)
    (t : Tile) : setTile G x y t x y = t := by
  simp [setTile]

lemma setTile_other (G : Fin COLS → Fin ROWS → Tile) (x : Fin COLS) (y : Fin ROWS)
    (t : Tile) (a : Fin COLS) (b : Fin ROWS) (h : ¬(a = x ∧ b = y)) :
    setTile G x y t a b = G a b := by
  simp [setTile, h]

lemma pyInt_eq_floor (q : ℚ) (h : 0 ≤ q) : pyInt q = ⌊q⌋ := by
  rw [Rat.floor_def, pyInt]
  exact Int.tdiv_eq_ediv (Rat.num_nonneg.mpr h) (Int.natCast_nonneg _)

lemma stageOf_eq_floor (c : CropType) (t : ℚ) (hg : 0 < c.grow_time) (ht : 0 ≤ t) :
    stageOf c t = min ⌊t / c.grow_time * 4⌋ 3 := by
  rw [stageOf, pyInt_eq_floor]
  positivity

lemma stageOf_le_three (c : CropType) (t : ℚ) : stageOf c t ≤ 3 :=
  min_le_right _ _

lemma stageOf_mono (c : CropType) (hg : 0 < c.grow_time) {t₁ t₂ : ℚ}
    (h0 : 0 ≤ t₁) (h12 : t₁ ≤ t₂) : stageOf c t₁ ≤ stageOf c t₂ := by
  rw [stageOf_eq_floor c t₁ hg h0, stageOf_eq_floor c t₂ hg (h0.trans h12)]
  refine min_le_min ?_ le_rfl
  apply Int.floor_le_floor
  gcongr

lemma growTile_crop (now : ℚ) (tile : Tile) : (growTile now tile).crop = tile.crop := by
  unfold growTile
  cases h : tile.crop
  · exact h
  · dsimp only
    split
    · exact h
    · split
      · rfl
      · exact h

lemma growTile_of_stage_three (now : ℚ) (tile : Tile) (h : tile.stage = 3) :
    growTile now tile = tile := by
  unfold growTile
  cases hc : tile.crop
  · rfl
  · simp [h]

lemma growTile_stage (now : ℚ) (tile : Tile) (c : CropType) (hc : tile.crop = some c)
    (h3 : tile.stage ≠ 3) :
    (growTile now tile).stage = stageOf c (now - tile.planted_at) := by
  unfold growTile
  rw [hc]
  dsimp only
  rw [if_neg h3]
  split
  · rfl
  · next h => exact (not_not.mp h).symm

lemma growTile_planted_at (now : ℚ) (tile : Tile) :
    (growTile now tile).planted_at = tile.planted_at := by
  unfold growTile
  cases h : tile.crop
  · rfl
  · dsimp only
    split
    · rfl
    · split <;> rfl

lemma growTile_of_crop_none (now : ℚ) (tile : Tile) (h : tile.crop = none) :
    growTile now tile = tile := by
  unfold growTile
  rw [h]

/-- A tile that makes `update_growth` spawn a rabbit this pass: occupied,
not yet at stage 3, and the recomputed stage is 3. -/
def ripensNow (now : ℚ) (t : Tile) : Bool :=
  match t.crop with
  | none => false
  | some c => decide (t.stage ≠ 3) && decide (stageOf c (now - t.planted_at) = 3)

lemma growStep_frame (now : ℚ) (rnd : ℕ → SpawnRnd) (s : GameState × ℕ)
    (p : Fin COLS × Fin ROWS) :
    (growStep now rnd s p).1.coins = s.1.coins ∧
    (growStep now rnd s p).1.x = s.1.x ∧
    (growStep now rnd s p).1.y = s.1.y ∧
    (growStep now rnd s p).1.selected = s.1.selected ∧
    (growStep now rnd s p).1.harvest_log = s.1.harvest_log := by
  unfold growStep spawn_rabbit
  dsimp only
  cases h : (s.1.grid p.1 p.2).crop with
  | none => exact ⟨rfl, rfl, rfl, rfl, rfl⟩
  | some c =>
    dsimp only
    split
    · exact ⟨rfl, rfl, rfl, rfl, rfl⟩
    · split
      · split <;> exact ⟨rfl, rfl, rfl, rfl, rfl⟩
      · exact ⟨rfl, rfl, rfl, rfl, rfl⟩

lemma growStep_grid_other (now : ℚ) (rnd : ℕ → SpawnRnd) (s : GameState × ℕ)
    (p q : Fin COLS × Fin ROWS) (hq : q ≠ p) :
    (growStep now rnd s p).1.grid q.1 q.2 = s.1.grid q.1 q.2 := by
  have hq' : ¬(q.1 = p.1 ∧ q.2 = p.2) := by
    intro hand
    exact hq (Prod.ext hand.1 hand.2)
  unfold growStep spawn_rabbit
  dsimp only
  cases h : (s.1.grid p.1 p.2).crop with
  | none => rfl
  | some c =>
    dsimp only
    split
    · rfl
    · split
      · split <;> exact setTile_other _ _ _ _ _ _ hq'
      · rfl

lemma growStep_grid_self (now : ℚ) (rnd : ℕ → SpawnRnd) (s : GameState × ℕ)
    (p : Fin COLS × Fin ROWS) :
    (growStep now rnd s p).1.grid p.1 p.2 = growTile now (s.1.grid p.1 p.2) := by
  unfold growStep spawn_rabbit
  dsimp only
  cases h : (s.1.grid p.1 p.2).crop with
  | none => rw [growTile_of_crop_none now _ h]
  | some c =>
    dsimp only
    have hgrow : growTile now (s.1.grid p.1 p.2) =
        if (s.1.grid p.1 p.2).stage = 3 then s.1.grid p.1 p.2
        else
          if stageOf c (now - (s.1.grid p.1 p.2).planted_at) ≠
              (s.1.grid p.1 p.2).stage then
            { crop := some c, planted_at := (s.1.grid p.1 p.2).planted_at,
              stage := stageOf c (now - (s.1.grid p.1 p.2).planted_at),
              fertilized := (s.1.grid p.1 p.2).fertilized,
              flash_to := (s.1.grid p.1 p.2).flash_to,
              sparkle_t := (s.1.grid p.1 p.2).sparkle_t }
          else s.1.grid p.1 p.2 := by
      unfold growTile
      rw [h]
    rw [hgrow]
    split
    · rfl
    · split
      · split <;> exact setTile_same _ _ _ _
      · rfl

lemma growStep_rabbits_len (now : ℚ) (rnd : ℕ → SpawnRnd) (s : GameState × ℕ)
    (p : Fin COLS × Fin ROWS) :
    (growStep now rnd s p).1.rabbits.length =
      s.1.rabbits.length + (if ripensNow now (s.1.grid p.1 p.2) then 1 else 0) := by
  unfold growStep spawn_rabbit ripensNow
  dsimp only
  cases h : (s.1.grid p.1 p.2).crop with
  | none => simp
  | some c =>
    dsimp only
    split
    · next h3 => simp [h3]
    · next h3 =>
      split
      · next hne =>
        split
        · next h3' => simp [h3, h3']
        · next h3' => simp [h3, h3']
      · next hne =>
        have hns : ¬(stageOf c (now - (s.1.grid p.1 p.2).planted_at) = 3) := by
          intro hcontra
          exact h3 (by rw [← not_not.mp hne, hcontra])
        simp [hns]

lemma foldGrow_frame (now : ℚ) (rnd : ℕ → SpawnRnd) :
    ∀ (ps : List (Fin COLS × Fin ROWS)) (s : GameState × ℕ),
    (ps.foldl (growStep now rnd) s).1.coins = s.1.coins ∧
    (ps.foldl (growStep now rnd) s).1.x = s.1.x ∧
    (ps.foldl (growStep now rnd) s).1.y = s.1.y ∧
    (ps.foldl (growStep now rnd) s).1.selected = s.1.selected ∧
    (ps.foldl (growStep now rnd) s).1.harvest_log = s.1.harvest_log := by
  intro ps
  induction ps with
  | nil => exact fun s => ⟨rfl, rfl, rfl, rfl, rfl⟩
  | cons p ps ih =>
    intro s
    have h1 := growStep_frame now rnd s p
    have h2 := ih (growStep now rnd s p)
    simp only [List.foldl_cons]
    exact ⟨h2.1.trans h1.1, h2.2.1.trans h1.2.1, h2.2.2.1.trans h1.2.2.1,
           h2.2.2.2.1.trans h1.2.2.2.1, h2.2.2.2.2.trans h1.2.2.2.2⟩

lemma foldGrow_grid_not_mem (now : ℚ) (rnd : ℕ → SpawnRnd) :
    ∀ (ps : List (Fin COLS × Fin ROWS)) (s : GameState × ℕ)
      (q : Fin COLS × Fin ROWS), q ∉ ps →
    (ps.foldl (growStep now rnd) s).1.grid q.1 q.2 = s.1.grid q.1 q.2 := by
  intro ps
  induction ps with
  | nil => exact fun s q _ => rfl
  | cons p ps ih =>
    intro s q hq
    simp only [List.foldl_cons]
    rw [ih (growStep now rnd s p) q (fun hmem => hq (List.mem_cons_of_mem _ hmem))]
    exact growStep_grid_other now rnd s p q (fun he => hq (he ▸ List.mem_cons_self _ _))

lemma foldGrow_grid_mem (now : ℚ) (rnd : ℕ → SpawnRnd) :
    ∀ (ps : List (Fin COLS × Fin ROWS)) (s : GameState × ℕ)
      (q : Fin COLS × Fin ROWS), ps.Nodup → q ∈ ps →
    (ps.foldl (growStep now rnd) s).1.grid q.1 q.2 = growTile now (s.1.grid q.1 q.2) := by
  intro ps
  induction ps with
  | nil => exact fun s q _ hq => absurd hq (List.not_mem_nil q)
  | cons p ps ih =>
    intro s q hnd hq
    have hpnotin : p ∉ ps := (List.nodup_cons.mp hnd).1
    simp only [List.foldl_cons]
    rcases List.mem_cons.mp hq with he | hmem
    · subst he
      rw [foldGrow_grid_not_mem now rnd ps _ q hpnotin]
      exact growStep_grid_self now rnd s q
    · have hqp : q ≠ p := fun he => hpnotin (he ▸ hmem)
      rw [ih (growStep now rnd s p) q (List.nodup_cons.mp hnd).2 hmem,
          growStep_grid_other now rnd s p q hqp]

lemma foldGrow_len (now : ℚ) (rnd : ℕ → SpawnRnd) :
    ∀ (ps : List (Fin COLS × Fin ROWS)) (s : GameState × ℕ), ps.Nodup →
    (ps.foldl (growStep now rnd) s).1.rabbits.length =
      s.1.rabbits.length + ps.countP (fun q => ripensNow now (s.1.grid q.1 q.2)) := by
  intro ps
  induction ps with
  | nil => simp
  | cons p ps ih =>
    intro s hnd
    have hpnotin : p ∉ ps := (List.nodup_cons.mp hnd).1
    simp only [List.foldl_cons, List.countP_cons]
    rw [ih (growStep now rnd s p) (List.nodup_cons.mp hnd).2]
    have hcongr : (ps.countP fun q => ripensNow now ((growStep now rnd s p).1.grid q.1 q.2))
        = ps.countP fun q => ripensNow now (s.1.grid q.1 q.2) := by
      apply List.countP_congr
      intro q hq
      rw [growStep_grid_other now rnd s p q (fun he => hpnotin (he ▸ hq))]
    rw [hcongr, growStep_rabbits_len now rnd s p]
    by_cases hr : ripensNow now (s.1.grid p.1 p.2) <;> simp [hr] <;> omega

lemma positions_nodup : positions.Nodup := by decide

lemma positions_mem (p : Fin COLS × Fin ROWS) : p ∈ positions := by
  revert p
  decide

lemma update_growth_grid (now : ℚ) (rnd : ℕ → SpawnRnd) (g : GameState)
    (a : Fin COLS) (b : Fin ROWS) :
    (update_growth now rnd g).grid a b = growTile now (g.grid a b) :=
  foldGrow_grid_mem now rnd positions (g, 0) (a, b) positions_nodup (positions_mem (a, b))

lemma update_growth_coins (now : ℚ) (rnd : ℕ → SpawnRnd) (g : GameState) :
    (update_growth now rnd g).coins = g.coins :=
  (foldGrow_frame now rnd positions (g, 0)).1

lemma update_growth_x (now : ℚ) (rnd : ℕ → SpawnRnd) (g : GameState) :
    (update_growth now rnd g).x = g.x :=
  (foldGrow_frame now rnd positions (g, 0)).2.1

lemma update_growth_y (now : ℚ) (rnd : ℕ → SpawnRnd) (g : GameState) :
    (update_growth now rnd g).y = g.y :=
  (foldGrow_frame now rnd positions (g, 0)).2.2.1

lemma update_growth_selected (now : ℚ) (rnd : ℕ → SpawnRnd) (g : GameState) :
    (update_growth now rnd g).selected = g.selected :=
  (foldGrow_frame now rnd positions (g, 0)).2.2.2.1

lemma update_growth_harvest_log (now : ℚ) (rnd : ℕ → SpawnRnd) (g : GameState) :
    (update_growth now rnd g).harvest_log = g.harvest_log :=
  (foldGrow_frame now rnd positions (g, 0)).2.2.2.2

lemma update_growth_rabbits_len (now : ℚ) (rnd : ℕ → SpawnRnd) (g : GameState) :
    (update_growth now rnd g).rabbits.length =
      g.rabbits.length + positions.countP (fun q => ripensNow now (g.grid q.1 q.2)) :=
  foldGrow_len now rnd positions (g, 0) positions_nodup

lemma rabbitStep_grid_cases (now : ℚ) (dirs : ℕ → Fin 4)
    (s : (Fin COLS → Fin ROWS → Tile) × List Rabbit × ℕ) (r : Rabbit)
    (a : Fin COLS) (b : Fin ROWS) :
    (rabbitStep now dirs s r).1 a b = s.1 a b ∨
    (rabbitStep now dirs s r).1 a b = ({} : Tile) := by
  unfold rabbitStep setTile
  dsimp only
  split
  · split
    · dsimp only
      split
      · exact Or.inr rfl
      · exact Or.inl rfl
    · exact Or.inl rfl
  · split
    · dsimp only
      split
      · exact Or.inr rfl
      · exact Or.inl rfl
    · exact Or.inl rfl

lemma foldRabbits_grid_cases (now : ℚ) (dirs : ℕ → Fin 4) :
    ∀ (l : List Rabbit) (s : (Fin COLS → Fin ROWS → Tile) × List Rabbit × ℕ)
      (a : Fin COLS) (b : Fin ROWS),
    (l.foldl (rabbitStep now dirs) s).1 a b = s.1 a b ∨
    (l.foldl (rabbitStep now dirs) s).1 a b = ({} : Tile) := by
  intro l
  induction l with
  | nil => exact fun s a b => Or.inl rfl
  | cons r l ih =>
    intro s a b
    simp only [List.foldl_cons]
    rcases ih (rabbitStep now dirs s r) a b with h | h
    · rw [h]
      exact rabbitStep_grid_cases now dirs s r a b
    · exact Or.inr h

lemma update_rabbits_grid_cases (now : ℚ) (dirs : ℕ → Fin 4) (g : GameState)
    (a : Fin COLS) (b : Fin ROWS) :
    (update_rabbits now dirs g).grid a b = g.grid a b ∨
    (update_rabbits now dirs g).grid a b = ({} : Tile) :=
  foldRabbits_grid_cases now dirs g.rabbits (g.grid, [], 0) a b

lemma update_rabbits_coins (now : ℚ) (dirs : ℕ → Fin 4) (g : GameState) :
    (update_rabbits now dirs g).coins = g.coins := rfl

lemma update_rabbits_harvest_log (now : ℚ) (dirs : ℕ → Fin 4) (g : GameState) :
    (update_rabbits now dirs g).harvest_log = g.harvest_log := rfl

lemma update_rabbits_x (now : ℚ) (dirs : ℕ → Fin 4) (g : GameState) :
    (update_rabbits now dirs g).x = g.x := rfl

lemma update_rabbits_y (now : ℚ) (dirs : ℕ → Fin 4) (g : GameState) :
    (update_rabbits now dirs g).y = g.y := rfl

lemma update_rabbits_selected (now : ℚ) (dirs : ℕ → Fin 4) (g : GameState) :
    (update_rabbits now dirs g).selected = g.selected := rfl

lemma rabbitStep_stay_eats (now : ℚ) (dirs : ℕ → Fin 4)
    (s : (Fin COLS → Fin ROWS → Tile) × List Rabbit × ℕ) (r : Rabbit)
    (hstay : ¬(r.next_move ≤ now))
    (hcs : ((s.1 r.x r.y).crop.isSome ∧ (s.1 r.x r.y).stage = 3) ∨
           s.1 r.x r.y = ({} : Tile)) :
    (rabbitStep now dirs s r).1 r.x r.y = ({} : Tile) := by
  unfold rabbitStep setTile
  simp only [if_neg hstay]
  rcases hcs with hc | hc
  · rw [if_pos hc]
    show (if r.x = r.x ∧ r.y = r.y then ({} : Tile) else s.1 r.x r.y) = ({} : Tile)
    rw [if_pos ⟨rfl, rfl⟩]
  · rw [hc]
    have hne : ¬((({} : Tile).crop.isSome = true) ∧ ({} : Tile).stage = 3) := by
      intro hand
      simpa using hand.1
    rw [if_neg hne]
    exact hc

lemma update_rabbits_eats (now : ℚ) (dirs : ℕ → Fin 4) (g : GameState) (r : Rabbit)
    (hmem : r ∈ g.rabbits) (hstay : ¬(r.next_move ≤ now))
    (hcrop : (g.grid r.x r.y).crop.isSome) (hstage : (g.grid r.x r.y).stage = 3) :
    (update_rabbits now dirs g).grid r.x r.y = ({} : Tile) := by
  obtain ⟨l₁, l₂, hsplit⟩ := List.mem_iff_append.mp hmem
  unfold update_rabbits
  dsimp only
  rw [hsplit, List.foldl_append, List.foldl_cons]
  have hmid : (rabbitStep now dirs (l₁.foldl (rabbitStep now dirs) (g.grid, [], 0)) r).1
      r.x r.y = ({} : Tile) := by
    apply rabbitStep_stay_eats now dirs _ r hstay
    rcases foldRabbits_grid_cases now dirs l₁ (g.grid, [], 0) r.x r.y with h | h
    · rw [h]
      exact Or.inl ⟨hcrop, hstage⟩
    · exact Or.inr h
  rcases foldRabbits_grid_cases now dirs l₂
      (rabbitStep now dirs (l₁.foldl (rabbitStep now dirs) (g.grid, [], 0)) r) r.x r.y with
    h | h
  · rw [h, hmid]
  · exact h

lemma ripensNow_none (now : ℚ) (t : Tile) (hc : t.crop = none) :
    ripensNow now t = false := by
  unfold ripensNow
  rw [hc]

lemma ripensNow_some (now : ℚ) (t : Tile) (c : CropType) (hc : t.crop = some c) :
    ripensNow now t =
      (decide (t.stage ≠ 3) && decide (stageOf c (now - t.planted_at) = 3)) := by
  unfold ripensNow
  rw [hc]

lemma countP_positions_zero (b : Tile → Bool) (G : Fin COLS → Fin ROWS → Tile)
    (hall : ∀ (a : Fin COLS) (c : Fin ROWS), b (G a c) = false) :
    positions.countP (fun q => b (G q.1 q.2)) = 0 := by
  apply List.countP_eq_zero.mpr
  intro q _
  simp [hall q.1 q.2]

lemma countP_positions_one (b : Tile → Bool) (G : Fin COLS → Fin ROWS → Tile)
    (x : Fin COLS) (y : Fin ROWS) (hone : b (G x y) = true)
    (hrest : ∀ (a : Fin COLS) (c : Fin ROWS), ¬(a = x ∧ c = y) → b (G a c) = false) :
    positions.countP (fun q => b (G q.1 q.2)) = 1 := by
  have hcongr : positions.countP (fun q => b (G q.1 q.2)) =
      positions.countP (fun q => decide (q = (x, y))) := by
    apply List.countP_congr
    intro q _
    by_cases hq : q = (x, y)
    · subst hq
      simpa using hone
    · have hq' : ¬(q.1 = x ∧ q.2 = y) := fun hand => hq (Prod.ext hand.1 hand.2)
      simp [hrest q.1 q.2 hq', hq]
  rw [hcongr]
  exact List.count_eq_one_of_mem positions_nodup (positions_mem (x, y))

lemma handle_fertilizer_spec (now : ℚ) (g : GameState) (c : CropType)
    (hc : (g.grid g.x g.y).crop = some c)
    (hf : (g.grid g.x g.y).fertilized = false)
    (hcoins : 5 ≤ g.coins) :
    handle_fertilizer now g =
      { g with
        coins := g.coins - 5
        grid := setTile g.grid g.x g.y
          { crop := some c,
            planted_at := (g.grid g.x g.y).planted_at -
              max (c.grow_time - (now - (g.grid g.x g.y).planted_at)) 0 / 2,
            stage := (g.grid g.x g.y).stage,
            fertilized := true,
            flash_to := (g.grid g.x g.y).flash_to,
            sparkle_t := now } } := by
  have hnotlt : ¬(g.coins < 5) := not_lt.mpr hcoins
  have hft : ¬((g.grid g.x g.y).fertilized = true) := by simp [hf]
  unfold handle_fertilizer
  rw [if_neg hnotlt]
  dsimp only
  rw [hc]
  dsimp only
  rw [if_neg hft]

lemma handle_fertilizer_fertilized (now : ℚ) (g : GameState)
    (hf : (g.grid g.x g.y).fertilized = true) :
    handle_fertilizer now g = g := by
  unfold handle_fertilizer
  split
  · rfl
  · dsimp only
    cases hc : (g.grid g.x g.y).crop with
    | none => rfl
    | some c =>
      dsimp only
      rw [if_pos hf]

/-- C2: fertilizing an occupied, unfertilized cell with positive remaining
growth time `r` (given at least 5 coins) deducts exactly 5 coins, sets the
fertilized flag, and leaves exactly `r / 2` of remaining growth time; a
second fertilize command on the same planting, at any time, is a complete
no-op. -/
theorem fertilize_halves_remaining (now : ℚ) (g : GameState) (c : CropType)
    (hc : (g.grid g.x g.y).crop = some c)
    (hf : (g.grid g.x g.y).fertilized = false)
    (hcoins : 5 ≤ g.coins)
    (hrem : 0 < c.grow_time - (now - (g.grid g.x g.y).planted_at)) :
    (handle_fertilizer now g).coins = g.coins - 5 ∧
    ((handle_fertilizer now g).grid g.x g.y).fertilized = true ∧
    c.grow_time - (now - ((handle_fertilizer now g).grid g.x g.y).planted_at) =
      (c.grow_time - (now - (g.grid g.x g.y).planted_at)) / 2 ∧
    ∀ now2 : ℚ, handle_fertilizer now2 (handle_fertilizer now g) = handle_fertilizer now g := by
  have hspec := handle_fertilizer_spec now g c hc hf hcoins
  refine ⟨by rw [hspec], ?_, ?_, ?_⟩
  · rw [hspec]
    dsimp only
    rw [setTile_same]
  · rw [hspec]
    dsimp only
    rw [setTile_same]
    dsimp only
    rw [max_eq_left hrem.le]
    ring
  · intro now2
    apply handle_fertilizer_fertilized
    rw [hspec]
    dsimp only
    rw [setTile_same]

/-- Witness for C2 at a concrete input: `c200` planted at time 0 on the
cursor cell, fertilized at time 100 with 25 coins. -/
theorem fertilize_halves_remaining_witness :
    (handle_fertilizer 100 gFert).coins = gFert.coins - 5 ∧
    ((handle_fertilizer 100 gFert).grid gFert.x gFert.y).fertilized = true ∧
    c200.grow_time - (100 - ((handle_fertilizer 100 gFert).grid gFert.x gFert.y).planted_at) =
      (c200.grow_time - (100 - (gFert.grid gFert.x gFert.y).planted_at)) / 2 ∧
    ∀ now2 : ℚ, handle_fertilizer now2 (handle_fertilizer 100 gFert) =
      handle_fertilizer 100 gFert :=
  fertilize_halves_remaining 100 gFert c200 rfl rfl (by decide)
    (by norm_num [gFert, c200, initState, setTile])

/-- C1: for an occupied cell whose stored stage was produced by the stage
formula at some earlier elapsed time `t₀ ≤ t` (with `t = now - planted_at`
the current elapsed time), a growth update leaves the cell's stage at
exactly `min(int(t / grow_time * 4), 3)`; that formula is monotonically
non-decreasing in the elapsed time and clamped at 3, and a cell already at
stage 3 is left entirely unchanged by the update. -/
theorem update_growth_stage_formula (now : ℚ) (rnd : ℕ → SpawnRnd) (g : GameState)
    (a : Fin COLS) (b : Fin ROWS) (c : CropType) (t₀ : ℚ)
    (hc : (g.grid a b).crop = some c) (hg : 0 < c.grow_time)
    (ht₀ : 0 ≤ t₀) (ht₀le : t₀ ≤ now - (g.grid a b).planted_at)
    (hstage : (g.grid a b).stage = stageOf c t₀) :
    ((update_growth now rnd g).grid a b).stage =
      stageOf c (now - (g.grid a b).planted_at) ∧
    (∀ t₁ t₂ : ℚ, 0 ≤ t₁ → t₁ ≤ t₂ → stageOf c t₁ ≤ stageOf c t₂) ∧
    stageOf c (now - (g.grid a b).planted_at) ≤ 3 ∧
    ((g.grid a b).stage = 3 → (update_growth now rnd g).grid a b = g.grid a b) := by
  refine ⟨?_, fun t₁ t₂ h1 h12 => stageOf_mono c hg h1 h12, stageOf_le_three c _,
          fun h3 => ?_⟩
  · rw [update_growth_grid]
    by_cases h3 : (g.grid a b).stage = 3
    · rw [growTile_of_stage_three now _ h3]
      have ht3 : stageOf c t₀ = 3 := hstage.symm.trans h3
      have hmono := stageOf_mono c hg ht₀ ht₀le
      have hle := stageOf_le_three c (now - (g.grid a b).planted_at)
      omega
    · rw [growTile_stage now _ c hc h3]
  · rw [update_growth_grid, growTile_of_stage_three now _ h3]

/-- Witness for C1: a Bean planted at time 0, growth update at time 113
(elapsed 113 ≥ 112.5 = 3/4 · 150, so the formula gives stage 3). -/
theorem update_growth_stage_formula_witness :
    ((update_growth 113 rnd0 gBean).grid 0 0).stage = 3 := by
  have hs0 : stageOf bean 0 = 0 := by
    rw [stageOf, pyInt_eq_floor _ (by norm_num [bean, CROPS])]
    norm_num [bean, CROPS]
  have h := update_growth_stage_formula 113 rnd0 gBean 0 0 bean 0 rfl
    (by norm_num [bean, CROPS]) le_rfl
    (by norm_num [gBean, initState, setTile]) (hs0.symm)
  rw [h.1]
  show stageOf bean (113 - 0) = 3
  rw [stageOf, pyInt_eq_floor _ (by norm_num [bean, CROPS])]
  norm_num [bean, CROPS]

lemma handle_action_empty (now : ℚ) (g : GameState)
    (h : (g.grid g.x g.y).crop = none) :
    handle_action now g =
      if g.selected.seed_cost ≤ g.coins then
        { g with
          coins := g.coins - g.selected.seed_cost
          grid := setTile g.grid g.x g.y
            { crop := some g.selected, planted_at := now, stage := 0,
              fertilized := false, flash_to := now + 3/10,
              sparkle_t := (g.grid g.x g.y).sparkle_t } }
      else g := by
  unfold handle_action
  dsimp only
  rw [h]

lemma handle_action_stage3 (now : ℚ) (g : GameState) (c : CropType)
    (hc : (g.grid g.x g.y).crop = some c) (h3 : (g.grid g.x g.y).stage = 3) :
    handle_action now g =
      { g with
        coins := g.coins + c.reward
        harvest_log := fun d => if d = c then g.harvest_log d + 1 else g.harvest_log d
        grid := setTile g.grid g.x g.y {} } := by
  unfold handle_action
  dsimp only
  rw [hc]
  dsimp only
  rw [if_pos h3]

lemma handle_action_notripe (now : ℚ) (g : GameState) (c : CropType)
    (hc : (g.grid g.x g.y).crop = some c) (h3 : (g.grid g.x g.y).stage ≠ 3) :
    handle_action now g = g := by
  unfold handle_action
  dsimp only
  rw [hc]
  dsimp only
  rw [if_neg h3]

/-- C3: the SPACE action on a cell occupied at stage 3 adds exactly the
crop's reward to the balance, increments exactly that crop's harvest
counter by 1, and resets the cell to a fresh empty tile; on an empty cell
it behaves exactly as the plant command (deducting the seed cost when
affordable, no-op otherwise); on a cell occupied below stage 3 it is a
complete no-op. -/
theorem harvest_spec (now : ℚ) (g : GameState) :
    (∀ c : CropType, (g.grid g.x g.y).crop = some c → (g.grid g.x g.y).stage = 3 →
      (handle_action now g).coins = g.coins + c.reward ∧
      (handle_action now g).harvest_log c = g.harvest_log c + 1 ∧
      (∀ d : CropType, d ≠ c → (handle_action now g).harvest_log d = g.harvest_log d) ∧
      (handle_action now g).grid g.x g.y = ({} : Tile)) ∧
    ((g.grid g.x g.y).crop = none →
      handle_action now g =
        if g.selected.seed_cost ≤ g.coins then
          { g with
            coins := g.coins - g.selected.seed_cost
            grid := setTile g.grid g.x g.y
              { crop := some g.selected, planted_at := now, stage := 0,
                fertilized := false, flash_to := now + 3/10,
                sparkle_t := (g.grid g.x g.y).sparkle_t } }
        else g) ∧
    (∀ c : CropType, (g.grid g.x g.y).crop = some c → (g.grid g.x g.y).stage ≠ 3 →
      handle_action now g = g) := by
  refine ⟨fun c hc h3 => ?_, fun h => handle_action_empty now g h,
          fun c hc h3 => handle_action_notripe now g c hc h3⟩
  rw [handle_action_stage3 now g c hc h3]
  refine ⟨rfl, ?_, fun d hd => ?_, ?_⟩
  · dsimp only
    rw [if_pos rfl]
  · dsimp only
    rw [if_neg hd]
  · dsimp only
    rw [setTile_same]

/-- Witness for C3 at a concrete input: harvesting a ripe Bean on the
cursor cell of `gRipe`. -/
theorem harvest_spec_witness :
    (handle_action 0 gRipe).coins = gRipe.coins + bean.reward ∧
    (handle_action 0 gRipe).harvest_log bean = gRipe.harvest_log bean + 1 ∧
    (handle_action 0 gRipe).grid gRipe.x gRipe.y = ({} : Tile) :=
  let h := (harvest_spec 0 gRipe).1 bean rfl rfl
  ⟨h.1, h.2.1, h.2.2.2⟩

/-- Counterexample to C4 as stated: on a cell occupied at stage 3, the
SPACE command does change state (it harvests), so "if the cell is occupied
the command changes no state at all" is false. -/
theorem plant_occupied_counterexample :
    (handle_action 0 gRipe).harvest_log bean ≠ gRipe.harvest_log bean := by
  decide

/-- C4 (amended): a plant command on an empty cell with enough coins
deducts exactly the seed cost and occupies the cell at stage 0 with the
fertilized flag cleared; with insufficient coins on an empty cell, or on a
cell occupied at stage ≠ 3, the command changes no state at all (an
occupied stage-3 cell is harvested instead, see C3). -/
theorem plant_spec (now : ℚ) (g : GameState) :
    ((g.grid g.x g.y).crop = none → g.selected.seed_cost ≤ g.coins →
      (handle_action now g).coins = g.coins - g.selected.seed_cost ∧
      (handle_action now g).grid g.x g.y =
        { crop := some g.selected, planted_at := now, stage := 0, fertilized := false,
          flash_to := now + 3/10, sparkle_t := (g.grid g.x g.y).sparkle_t }) ∧
    ((g.grid g.x g.y).crop = none → ¬(g.selected.seed_cost ≤ g.coins) →
      handle_action now g = g) ∧
    (∀ c : CropType, (g.grid g.x g.y).crop = some c → (g.grid g.x g.y).stage ≠ 3 →
      handle_action now g = g) := by
  refine ⟨fun h hcanafford => ?_, fun h hpoor => ?_,
          fun c hc h3 => handle_action_notripe now g c hc h3⟩
  · rw [handle_action_empty now g h, if_pos hcanafford]
    refine ⟨rfl, ?_⟩
    dsimp only
    rw [setTile_same]
  · rw [handle_action_empty now g h, if_neg hpoor]

/-- Witness for C4 (amended) at a concrete input: planting the selected
Corn (cost 5) on the empty cursor cell of the initial state (25 coins),
and the no-op on a stage-2 cell. -/
theorem plant_spec_witness :
    (handle_action 0 initState).coins = initState.coins - initState.selected.seed_cost ∧
    (handle_action 0 initState).grid initState.x initState.y =
      { crop := some initState.selected, planted_at := 0, stage := 0, fertilized := false,
        flash_to := 0 + 3/10, sparkle_t := (initState.grid initState.x initState.y).sparkle_t } :=
  (plant_spec 0 initState).1 rfl (by decide)

/-- C5 (amended): a forager sitting on an occupied stage-3 cell at the
start of a tick *that does not move this tick* (its hop time has not
arrived) causes that cell to be a fresh empty tile by the end of the
forager update, and the forager update never changes the coin balance or
any harvest counter.  (A forager whose hop is due moves first and its
munch check applies to the cell it lands on, not the one it left — see the
counterexample.) -/
theorem forager_eats_ripe_cell (now : ℚ) (dirs : ℕ → Fin 4) (g : GameState) (r : Rabbit)
    (hmem : r ∈ g.rabbits) (hstay : ¬(r.next_move ≤ now))
    (hcrop : (g.grid r.x r.y).crop.isSome) (hstage : (g.grid r.x r.y).stage = 3) :
    (update_rabbits now dirs g).grid r.x r.y = ({} : Tile) ∧
    (update_rabbits now dirs g).coins = g.coins ∧
    (update_rabbits now dirs g).harvest_log = g.harvest_log :=
  ⟨update_rabbits_eats now dirs g r hmem hstay hcrop hstage, rfl, rfl⟩

/-- Witness for C5 (amended) at a concrete input: a rabbit resting on the
ripe Bean cell (next hop at time 5, update at time 1). -/
theorem forager_eats_ripe_cell_witness :
    (update_rabbits 1 dirs0 gRabbitStay).grid 0 0 = ({} : Tile) ∧
    (update_rabbits 1 dirs0 gRabbitStay).coins = gRabbitStay.coins ∧
    (update_rabbits 1 dirs0 gRabbitStay).harvest_log = gRabbitStay.harvest_log :=
  forager_eats_ripe_cell 1 dirs0 gRabbitStay ⟨0, 0, 5⟩
    (List.mem_singleton.mpr rfl) (by decide) rfl rfl

/-- Counterexample to C5 as stated: a forager on the ripe Bean cell whose
hop is due at tick time 1 hops away (direction draw (0,-1), to row 5)
before the munch check, so the cell it occupied at the start of the tick
is still occupied at stage 3 at the end of the forager update. -/
theorem forager_moves_away_counterexample :
    gRabbitMove.rabbits = [⟨0, 0, 0⟩] ∧
    (gRabbitMove.grid 0 0).crop = some bean ∧
    (gRabbitMove.grid 0 0).stage = 3 ∧
    ((update_rabbits 1 dirs0 gRabbitMove).grid 0 0).crop = some bean ∧
    ((update_rabbits 1 dirs0 gRabbitMove).grid 0 0).stage = 3 ∧
    (update_rabbits 1 dirs0 gRabbitMove).rabbits = [⟨0, 5, 1 + RABBIT_MOVE_INT⟩] :=
  ⟨rfl, rfl, rfl, rfl, rfl, rfl⟩

lemma gC6b_grid : gC6b.grid = setTile initState.grid 0 0
    { crop := some bean, planted_at := 0, stage := 0, fertilized := false,
      flash_to := 0 + 3/10, sparkle_t := 0 } := rfl

lemma stageOf_bean_149 : stageOf bean (149 - 0) = 3 := by
  rw [stageOf, pyInt_eq_floor _ (by norm_num [bean, CROPS])]
  norm_num [bean, CROPS]

lemma gC6c_stage : (gC6c.grid 0 0).stage = 3 := by
  unfold gC6c
  rw [update_growth_grid, growTile_stage 149 _ bean rfl (by decide)]
  exact stageOf_bean_149

lemma gC6c_crop : (gC6c.grid 0 0).crop = some bean := by
  unfold gC6c
  rw [update_growth_grid, growTile_crop]
  rfl

lemma gC6c_len : gC6c.rabbits.length = 1 := by
  unfold gC6c
  rw [update_growth_rabbits_len]
  have hz : gC6b.rabbits.length = 0 := rfl
  rw [hz, Nat.zero_add]
  apply countP_positions_one (ripensNow 149) gC6b.grid 0 0
  · rw [ripensNow_some 149 _ bean rfl]
    show (decide ((0 : ℤ) ≠ 3) && decide (stageOf bean (149 - 0) = 3)) = true
    rw [stageOf_bean_149]
    simp
  · intro a c' h
    rw [gC6b_grid, setTile_other _ _ _ _ _ _ h]
    rfl

lemma gC6d_stage : (gC6d.grid 0 0).stage = 3 := by
  unfold gC6d
  rw [update_growth_grid, growTile_of_stage_three 150 _ gC6c_stage]
  exact gC6c_stage

lemma gC6d_crop : (gC6d.grid 0 0).crop = some bean := by
  unfold gC6d
  rw [update_growth_grid, growTile_crop]
  exact gC6c_crop

lemma gC6d_len : gC6d.rabbits.length = 1 := by
  unfold gC6d
  rw [update_growth_rabbits_len, gC6c_len]
  have hzero : positions.countP (fun q => ripensNow 150 (gC6c.grid q.1 q.2)) = 0 := by
    apply countP_positions_zero
    intro a c'
    by_cases h : a = 0 ∧ c' = 0
    · obtain ⟨ha, hc'⟩ := h
      subst ha
      subst hc'
      rw [ripensNow_some 150 _ bean gC6c_crop, gC6c_stage]
      simp
    · have hcell : gC6c.grid a c' = ({} : Tile) := by
        unfold gC6c
        rw [update_growth_grid, gC6b_grid, setTile_other _ _ _ _ _ _ h]
        rfl
      rw [hcell]
      rfl
  rw [hzero]

lemma gC6d_x : gC6d.x = 0 := by
  unfold gC6d gC6c
  rw [update_growth_x, update_growth_x]
  rfl

lemma gC6d_y : gC6d.y = 0 := by
  unfold gC6d gC6c
  rw [update_growth_y, update_growth_y]
  rfl

lemma gC6d_coins : gC6d.coins = 22 := by
  unfold gC6d gC6c
  rw [update_growth_coins, update_growth_coins]
  rfl

lemma gC6d_log : gC6d.harvest_log = gC6b.harvest_log := by
  unfold gC6d gC6c
  rw [update_growth_harvest_log, update_growth_harvest_log]

/-- Counterexample to C6 as stated: in the §8 scenario (Bean planted at
t = 0 on the 8×6 grid), the growth update at t = 149 already puts the
cell at stage 3, not stage 2 — the formula `min(int(t/150*4), 3)` reaches
3 as soon as `t ≥ 112.5`. -/
theorem scenario_stage149_counterexample :
    (gC6c.grid 0 0).stage = 3 ∧ (gC6c.grid 0 0).stage ≠ 2 := by
  refine ⟨gC6c_stage, ?_⟩
  rw [gC6c_stage]
  decide

/-- C6 (amended): in the §8 scenario (8×6 grid, Bean: grow 150 s, seed
cost 3, reward 8, planted at t = 0): at t = 149 the stage is already 3
(stage 3 is reached at elapsed 112.5 = 3/4 · 150) and exactly one forager
has spawned; at t = 150 the stage is still 3 and still exactly one
forager has spawned; harvesting at t = 150 adds exactly 8 coins (22 → 30)
and sets the Bean harvest counter to exactly 1, emptying the cell. -/
theorem scenario_growth_spec :
    (gC6c.grid 0 0).stage = 3 ∧
    gC6c.rabbits.length = 1 ∧
    (gC6d.grid 0 0).stage = 3 ∧
    gC6d.rabbits.length = 1 ∧
    gC6e.coins = gC6d.coins + 8 ∧
    gC6e.coins = 30 ∧
    gC6e.harvest_log bean = 1 ∧
    gC6e.grid 0 0 = ({} : Tile) := by
  have hcrop : (gC6d.grid gC6d.x gC6d.y).crop = some bean := by
    rw [gC6d_x, gC6d_y]
    exact gC6d_crop
  have hstage : (gC6d.grid gC6d.x gC6d.y).stage = 3 := by
    rw [gC6d_x, gC6d_y]
    exact gC6d_stage
  have he : gC6e =
      { gC6d with
        coins := gC6d.coins + bean.reward
        harvest_log := fun d => if d = bean then gC6d.harvest_log d + 1
                                else gC6d.harvest_log d
        grid := setTile gC6d.grid gC6d.x gC6d.y {} } :=
    handle_action_stage3 150 gC6d bean hcrop hstage
  have hcoins_e : gC6e.coins = gC6d.coins + bean.reward := by
    rw [he]
  have hlog_e : gC6e.harvest_log bean = gC6d.harvest_log bean + 1 := by
    rw [he]
    dsimp only
    rw [if_pos rfl]
  have hgrid_e : gC6e.grid 0 0 = ({} : Tile) := by
    rw [he]
    dsimp only
    rw [gC6d_x, gC6d_y, setTile_same]
  refine ⟨gC6c_stage, gC6c_len, gC6d_stage, gC6d_len, hcoins_e, ?_, ?_, hgrid_e⟩
  · rw [hcoins_e, gC6d_coins]
    rfl
  · rw [hlog_e, gC6d_log]
    rfl

lemma gC7f_grid : gC7f.grid 0 0 =
    { crop := some c200, planted_at := -50, stage := 0, fertilized := true,
      flash_to := 0, sparkle_t := 100 } := by
  unfold gC7f
  rw [handle_fertilizer_spec 100 gFert c200 rfl rfl (by decide)]
  dsimp only
  rw [show gFert.x = (0 : Fin COLS) from rfl, show gFert.y = (0 : Fin ROWS) from rfl,
      setTile_same]
  rw [show (gFert.grid (0 : Fin COLS) (0 : Fin ROWS)).planted_at = 0 from rfl,
      show c200.grow_time = (200 : ℚ) from rfl]
  rw [max_eq_left (by norm_num : (0 : ℚ) ≤ 200 - (100 - 0))]
  simp only [Tile.mk.injEq]
  norm_num
  exact ⟨rfl, rfl⟩

lemma gFert_stage100 : ((update_growth 100 rnd0 gFert).grid 0 0).stage = 2 := by
  rw [update_growth_grid, growTile_stage 100 _ c200 rfl (by decide)]
  show stageOf c200 (100 - 0) = 2
  rw [stageOf, pyInt_eq_floor _ (by norm_num [c200])]
  norm_num [c200]

lemma gC7g_stage : (gC7g.grid 0 0).stage = 3 := by
  unfold gC7g
  rw [update_growth_grid, gC7f_grid,
      growTile_stage 100 _ c200 rfl (by decide)]
  show stageOf c200 (100 - (-50)) = 3
  rw [stageOf, pyInt_eq_floor _ (by norm_num [c200])]
  norm_num [c200]

/-- Counterexample to C7 as stated: "the cell reaches stage 3 at t = 150,
not at t = 200" is false — after fertilizing at t = 100 the growth update
of the same tick (still at t = 100, well before 150) already puts the
cell at stage 3, because the shifted elapsed time is 150 ≥ 3/4 · 200. -/
theorem scenario_fertilizer_counterexample :
    (gC7g.grid 0 0).stage = 3 ∧ (gC7g.grid 0 0).stage ≠ 2 := by
  refine ⟨gC7g_stage, ?_⟩
  rw [gC7g_stage]
  decide

/-- C7 (amended): for a cell planted at t = 0 with grow duration 200 s and
fertilized at t = 100 (remaining 100): immediately before fertilizing the
stage at t = 100 is 2; fertilizing shifts the planting timestamp to −50,
so the remaining time to the *full* grow duration is exactly 50; but the
stage formula reaches 3 at elapsed 3/4 · 200 = 150, which is already met,
so the cell is at stage 3 from the growth update at t = 100 onward (not
at t = 200, and not first at t = 150). -/
theorem scenario_fertilizer_spec :
    ((update_growth 100 rnd0 gFert).grid 0 0).stage = 2 ∧
    (gC7f.grid 0 0).planted_at = -50 ∧
    c200.grow_time - (100 - (gC7f.grid 0 0).planted_at) = 50 ∧
    (gC7g.grid 0 0).stage = 3 := by
  refine ⟨gFert_stage100, ?_, ?_, gC7g_stage⟩
  · rw [gC7f_grid]
  · rw [gC7f_grid]
    norm_num [c200]

lemma spawnPickFrom_all (avoid : Fin COLS × Fin ROWS) :
    ∀ (l : List (Fin COLS × Fin ROWS)), (∀ p ∈ l, p = avoid) →
    spawnPickFrom avoid l = avoid := by
  intro l
  induction l with
  | nil => exact fun _ => rfl
  | cons p rest ih =>
    intro h
    have hp : p = avoid := h p (List.mem_cons_self _ _)
    cases rest with
    | nil => exact hp
    | cons q rest2 =>
      rw [spawnPickFrom, hp, if_neg (by simp)]
      exact ih (fun r hr => h r (List.mem_cons_of_mem _ hr))

/-- C8: for every sequence of position draws, `spawn_rabbit` appends
exactly one new forager (at the position selected by the 30-attempt retry
loop, with first move time `now + jitter · RABBIT_MOVE_INT`) and changes
nothing else; if all 30 draws equal the avoided (player) position the
forager is placed on that avoided position rather than failing; and for
any jitter draw in `[0, 1)` the first-move offset lies in
`[0, RABBIT_MOVE_INT)`. -/
theorem spawn_appends_one (g : GameState) (rnd : SpawnRnd) (now : ℚ) :
    (spawn_rabbit rnd now g).rabbits =
      g.rabbits ++ [⟨(spawnPickFrom (g.x, g.y) (List.ofFn rnd.draws)).1,
                    (spawnPickFrom (g.x, g.y) (List.ofFn rnd.draws)).2,
                    now + rnd.jitter * RABBIT_MOVE_INT⟩] ∧
    (spawn_rabbit rnd now g).grid = g.grid ∧
    (spawn_rabbit rnd now g).coins = g.coins ∧
    (spawn_rabbit rnd now g).harvest_log = g.harvest_log ∧
    (spawn_rabbit rnd now g).x = g.x ∧
    (spawn_rabbit rnd now g).y = g.y ∧
    ((∀ i : Fin 30, rnd.draws i = (g.x, g.y)) →
      spawnPickFrom (g.x, g.y) (List.ofFn rnd.draws) = (g.x, g.y)) ∧
    (0 ≤ rnd.jitter → rnd.jitter < 1 →
      0 ≤ rnd.jitter * RABBIT_MOVE_INT ∧
      rnd.jitter * RABBIT_MOVE_INT < RABBIT_MOVE_INT) := by
  refine ⟨rfl, rfl, rfl, rfl, rfl, rfl, fun hall => ?_, fun h0 h1 => ⟨?_, ?_⟩⟩
  · apply spawnPickFrom_all
    intro p hp
    obtain ⟨i, hi⟩ := (List.mem_ofFn _ _).mp hp
    rw [← hi, hall i]
  · exact mul_nonneg h0 (by norm_num [RABBIT_MOVE_INT])
  · calc rnd.jitter * RABBIT_MOVE_INT
        < 1 * RABBIT_MOVE_INT := by
          apply mul_lt_mul_of_pos_right h1
          norm_num [RABBIT_MOVE_INT]
      _ = RABBIT_MOVE_INT := one_mul _

/-- Witness for C8 at a concrete input: all 30 draws equal the player
tile (0,0) of the initial state, jitter draw 1/2. -/
theorem spawn_appends_one_witness :
    (spawn_rabbit rndAvoid 0 initState).rabbits =
      [⟨0, 0, 0 + (1/2 : ℚ) * RABBIT_MOVE_INT⟩] ∧
    spawnPickFrom (initState.x, initState.y) (List.ofFn rndAvoid.draws) =
      (initState.x, initState.y) ∧
    0 ≤ (1/2 : ℚ) * RABBIT_MOVE_INT ∧
    (1/2 : ℚ) * RABBIT_MOVE_INT < RABBIT_MOVE_INT := by
  have h := spawn_appends_one initState rndAvoid 0
  have hall : ∀ i : Fin 30, rndAvoid.draws i = (initState.x, initState.y) := fun i => rfl
  have hpick := h.2.2.2.2.2.2.1 hall
  have hj := h.2.2.2.2.2.2.2 (by norm_num [rndAvoid]) (by norm_num [rndAvoid])
  refine ⟨?_, hpick, hj.1, hj.2⟩
  rw [h.1, hpick]
  rfl

lemma crops_reward_nonneg : ∀ c ∈ CROPS, (0 : ℤ) ≤ c.reward := by decide

lemma inv_handle_action (now : ℚ) (g : GameState) (h : EconInv g) :
    EconInv (handle_action now g) := by
  obtain ⟨hcoins, hsel, hcrops⟩ := h
  cases hc : (g.grid g.x g.y).crop with
  | none =>
    rw [handle_action_empty now g hc]
    split
    · next haff =>
      refine ⟨by dsimp only; omega, hsel, ?_⟩
      intro a b c hcab
      dsimp only at hcab
      by_cases hab : a = g.x ∧ b = g.y
      · obtain ⟨ha, hb⟩ := hab
        subst ha
        subst hb
        rw [setTile_same] at hcab
        obtain rfl : g.selected = c := by simpa using hcab
        exact hsel
      · rw [setTile_other _ _ _ _ _ _ hab] at hcab
        exact hcrops a b c hcab
    · exact ⟨hcoins, hsel, hcrops⟩
  | some c0 =>
    by_cases h3 : (g.grid g.x g.y).stage = 3
    · rw [handle_action_stage3 now g c0 hc h3]
      have hc0 : c0 ∈ CROPS := hcrops _ _ _ hc
      have hr := crops_reward_nonneg c0 hc0
      refine ⟨by dsimp only; omega, hsel, ?_⟩
      intro a b c hcab
      dsimp only at hcab
      by_cases hab : a = g.x ∧ b = g.y
      · obtain ⟨ha, hb⟩ := hab
        subst ha
        subst hb
        rw [setTile_same] at hcab
        simp at hcab
      · rw [setTile_other _ _ _ _ _ _ hab] at hcab
        exact hcrops a b c hcab
    · rw [handle_action_notripe now g c0 hc h3]
      exact ⟨hcoins, hsel, hcrops⟩

lemma inv_handle_fertilizer (now : ℚ) (g : GameState) (h : EconInv g) :
    EconInv (handle_fertilizer now g) := by
  obtain ⟨hcoins, hsel, hcrops⟩ := h
  by_cases hlt : g.coins < 5
  · have : handle_fertilizer now g = g := by
      unfold handle_fertilizer
      rw [if_pos hlt]
    rw [this]
    exact ⟨hcoins, hsel, hcrops⟩
  · cases hc : (g.grid g.x g.y).crop with
    | none =>
      have : handle_fertilizer now g = g := by
        unfold handle_fertilizer
        rw [if_neg hlt]
        dsimp only
        rw [hc]
      rw [this]
      exact ⟨hcoins, hsel, hcrops⟩
    | some c0 =>
      by_cases hf : (g.grid g.x g.y).fertilized = true
      · rw [handle_fertilizer_fertilized now g hf]
        exact ⟨hcoins, hsel, hcrops⟩
      · have hf' : (g.grid g.x g.y).fertilized = false := by
          simpa using hf
        rw [handle_fertilizer_spec now g c0 hc hf' (not_lt.mp hlt)]
        have h5 : 5 ≤ g.coins := not_lt.mp hlt
        refine ⟨by dsimp only; omega, hsel, ?_⟩
        intro a b c hcab
        dsimp only at hcab
        by_cases hab : a = g.x ∧ b = g.y
        · obtain ⟨ha, hb⟩ := hab
          subst ha
          subst hb
          rw [setTile_same] at hcab
          obtain rfl : c0 = c := by simpa using hcab
          exact hcrops _ _ _ hc
        · rw [setTile_other _ _ _ _ _ _ hab] at hcab
          exact hcrops a b c hcab

lemma inv_handle_command (now : ℚ) (cmd : Command) (g : GameState) (h : EconInv g) :
    EconInv (handle_command now cmd g) := by
  obtain ⟨hcoins, hsel, hcrops⟩ := h
  cases cmd with
  | moveUp => exact ⟨hcoins, hsel, hcrops⟩
  | moveDown => exact ⟨hcoins, hsel, hcrops⟩
  | moveLeft => exact ⟨hcoins, hsel, hcrops⟩
  | moveRight => exact ⟨hcoins, hsel, hcrops⟩
  | action => exact inv_handle_action now g ⟨hcoins, hsel, hcrops⟩
  | fertilize => exact inv_handle_fertilizer now g ⟨hcoins, hsel, hcrops⟩
  | key k =>
    unfold handle_command
    dsimp only
    cases hk : CROP_BY_KEY k with
    | none => exact ⟨hcoins, hsel, hcrops⟩
    | some c =>
      have hmemc : c ∈ CROPS := List.mem_of_find?_eq_some hk
      exact ⟨hcoins, hmemc, hcrops⟩

lemma inv_handle_input (now : ℚ) (cmds : List Command) (g : GameState) (h : EconInv g) :
    EconInv (handle_input now cmds g) := by
  unfold handle_input
  induction cmds generalizing g with
  | nil => exact h
  | cons cmd rest ih =>
    rw [List.foldl_cons]
    exact ih (handle_command now cmd g) (inv_handle_command now cmd g h)

lemma inv_update_growth (now : ℚ) (rnd : ℕ → SpawnRnd) (g : GameState) (h : EconInv g) :
    EconInv (update_growth now rnd g) := by
  obtain ⟨hcoins, hsel, hcrops⟩ := h
  refine ⟨by rw [update_growth_coins]; exact hcoins,
          by rw [update_growth_selected]; exact hsel, ?_⟩
  intro a b c hcab
  rw [update_growth_grid, growTile_crop] at hcab
  exact hcrops a b c hcab

lemma inv_update_rabbits (now : ℚ) (dirs : ℕ → Fin 4) (g : GameState) (h : EconInv g) :
    EconInv (update_rabbits now dirs g) := by
  obtain ⟨hcoins, hsel, hcrops⟩ := h
  refine ⟨hcoins, hsel, ?_⟩
  intro a b c hcab
  rcases update_rabbits_grid_cases now dirs g a b with hcase | hcase
  · rw [hcase] at hcab
    exact hcrops a b c hcab
  · rw [hcase] at hcab
    simp at hcab

lemma inv_tick (now : ℚ) (cmds : List Command) (rnd : ℕ → SpawnRnd) (dirs : ℕ → Fin 4)
    (g : GameState) (h : EconInv g) : EconInv (tick now cmds rnd dirs g) :=
  inv_update_rabbits now dirs _
    (inv_update_growth now rnd _ (inv_handle_input now cmds g h))

lemma inv_init : EconInv initState := by
  refine ⟨by decide, List.get_mem CROPS 0 (by decide), ?_⟩
  intro a b c hcab
  simp [initState] at hcab

lemma reachable_inv (g : GameState) (h : Reachable g) : EconInv g := by
  induction h with
  | init => exact inv_init
  | step now cmds rnd dirs g _ ih => exact inv_tick now cmds rnd dirs g ih

/-- C9: in every state reachable from the initial state by ticks — each
tick applying any queued player commands, then the growth update, then the
forager update, with arbitrary random draws — the coin balance is
non-negative: deductions (seed cost, fertilizer cost) are guarded by
affordability checks, and harvest rewards only add. -/
theorem coins_nonneg (g : GameState) (h : Reachable g) : 0 ≤ g.coins :=
  (reachable_inv g h).1

/-- Witness for C9 at a concrete input: the initial state itself. -/
theorem coins_nonneg_witness : Reachable initState ∧ 0 ≤ initState.coins :=
  ⟨Reachable.init, coins_nonneg initState Reachable.init⟩

/-- C10: every player command (cursor moves, crop selection, SPACE
plant/harvest, fertilize) leaves the forager list unchanged, leaves every
grid cell other than the one at the cursor unchanged, and leaves the
harvest counter of every crop other than the one occupying the cursor
cell unchanged. -/
theorem command_frame (now : ℚ) (cmd : Command) (g : GameState) :
    (handle_command now cmd g).rabbits = g.rabbits ∧
    (∀ (a : Fin COLS) (b : Fin ROWS), ¬(a = g.x ∧ b = g.y) →
      (handle_command now cmd g).grid a b = g.grid a b) ∧
    (∀ c : CropType, (g.grid g.x g.y).crop ≠ some c →
      (handle_command now cmd g).harvest_log c = g.harvest_log c) := by
  cases cmd with
  | moveUp => exact ⟨rfl, fun a b _ => rfl, fun c _ => rfl⟩
  | moveDown => exact ⟨rfl, fun a b _ => rfl, fun c _ => rfl⟩
  | moveLeft => exact ⟨rfl, fun a b _ => rfl, fun c _ => rfl⟩
  | moveRight => exact ⟨rfl, fun a b _ => rfl, fun c _ => rfl⟩
  | key k =>
    unfold handle_command
    dsimp only
    cases hk : CROP_BY_KEY k with
    | none => exact ⟨rfl, fun a b _ => rfl, fun c _ => rfl⟩
    | some c => exact ⟨rfl, fun a b _ => rfl, fun c _ => rfl⟩
  | action =>
    show (handle_action now g).rabbits = g.rabbits ∧
      (∀ (a : Fin COLS) (b : Fin ROWS), ¬(a = g.x ∧ b = g.y) →
        (handle_action now g).grid a b = g.grid a b) ∧
      (∀ c : CropType, (g.grid g.x g.y).crop ≠ some c →
        (handle_action now g).harvest_log c = g.harvest_log c)
    cases hc : (g.grid g.x g.y).crop with
    | none =>
      rw [handle_action_empty now g hc]
      split
      · refine ⟨rfl, fun a b hab => ?_, fun c _ => rfl⟩
        dsimp only
        rw [setTile_other _ _ _ _ _ _ hab]
      · exact ⟨rfl, fun a b _ => rfl, fun c _ => rfl⟩
    | some c0 =>
      by_cases h3 : (g.grid g.x g.y).stage = 3
      · rw [handle_action_stage3 now g c0 hc h3]
        refine ⟨rfl, fun a b hab => ?_, fun c hcne => ?_⟩
        · dsimp only
          rw [setTile_other _ _ _ _ _ _ hab]
        · dsimp only
          rw [if_neg (fun he : c = c0 => hcne (by rw [he]))]
      · rw [handle_action_notripe now g c0 hc h3]
        exact ⟨rfl, fun a b _ => rfl, fun c _ => rfl⟩
  | fertilize =>
    show (handle_fertilizer now g).rabbits = g.rabbits ∧
      (∀ (a : Fin COLS) (b : Fin ROWS), ¬(a = g.x ∧ b = g.y) →
        (handle_fertilizer now g).grid a b = g.grid a b) ∧
      (∀ c : CropType, (g.grid g.x g.y).crop ≠ some c →
        (handle_fertilizer now g).harvest_log c = g.harvest_log c)
    by_cases hlt : g.coins < 5
    · have hg : handle_fertilizer now g = g := by
        unfold handle_fertilizer
        rw [if_pos hlt]
      rw [hg]
      exact ⟨rfl, fun a b _ => rfl, fun c _ => rfl⟩
    · cases hc : (g.grid g.x g.y).crop with
      | none =>
        have hg : handle_fertilizer now g = g := by
          unfold handle_fertilizer
          rw [if_neg hlt]
          dsimp only
          rw [hc]
        rw [hg]
        exact ⟨rfl, fun a b _ => rfl, fun c _ => rfl⟩
      | some c0 =>
        by_cases hf : (g.grid g.x g.y).fertilized = true
        · rw [handle_fertilizer_fertilized now g hf]
          exact ⟨rfl, fun a b _ => rfl, fun c _ => rfl⟩
        · have hf' : (g.grid g.x g.y).fertilized = false := by simpa using hf
          rw [handle_fertilizer_spec now g c0 hc hf' (not_lt.mp hlt)]
          refine ⟨rfl, fun a b hab => ?_, fun c _ => rfl⟩
          dsimp only
          rw [setTile_other _ _ _ _ _ _ hab]

/-- Witness for C10 at a concrete input: the SPACE command on the initial
state (a plant) leaves the foragers, a non-cursor cell and the Bean
harvest counter unchanged. -/
theorem command_frame_witness :
    (handle_command 0 Command.action initState).rabbits = initState.rabbits ∧
    (handle_command 0 Command.action initState).grid 1 1 = initState.grid 1 1 ∧
    (handle_command 0 Command.action initState).harvest_log bean =
      initState.harvest_log bean := by
  have h := command_frame 0 Command.action initState
  exact ⟨h.1, h.2.1 1 1 (by decide), h.2.2 bean (by decide)⟩
